import Mathlib

/- Verification of the AITrading analytics core.

   Shallow embedding conventions:
   - Rust f64 values are modelled as exact rationals (ℚ); floating-point
     rounding and NaN are outside the model, and division by zero is 0
     (Lean's convention).
   - Rust String values are modelled as List Char (abbreviated Str below);
     str::to_uppercase is modelled by mapping Char.toUpper (ASCII case
     mapping) over the characters.
   - HashMap<String, _> is modelled as an association list whose insert
     replaces any existing binding for the key.
   - Fallible I/O (HTTP fetches, directory reads, JSON parses) is modelled
     by passing the outcome of each external call as an explicit argument
     (Except / Option), so the pure control flow of the source is what is
     embedded. -/

namespace AITrading

/-- Rust strings as lists of characters. -/
abbrev Str := List Char

/-! ## Data model (src/types.rs) -/

/-- One OHLCV candle (types.rs `Kline`); the Rust field `open` is renamed
`open_` because `open` is a Lean keyword.  Fields not read by the embedded
code (quote_volume, trades, taker volumes) are omitted. -/
structure Kline where
  open_time : Int
  open_ : ℚ
  high : ℚ
  low : ℚ
  close : ℚ
  volume : ℚ
  close_time : Int
deriving DecidableEq, Repr

/-- types.rs `OIData`. -/
structure OIData where
  latest : ℚ
  average : ℚ
deriving DecidableEq, Repr

/-- types.rs `IntradayData`. -/
structure IntradayData where
  mid_prices : List ℚ
  ema20_values : List ℚ
  macd_values : List ℚ
  rsi7_values : List ℚ
  rsi14_values : List ℚ
deriving DecidableEq, Repr

/-- types.rs `LongerTermData`. -/
structure LongerTermData where
  ema20 : ℚ
  ema50 : ℚ
  atr3 : ℚ
  atr14 : ℚ
  current_volume : ℚ
  average_volume : ℚ
  macd_values : List ℚ
  rsi14_values : List ℚ
deriving DecidableEq, Repr

/-- types.rs `Data` (the MarketSnapshot). -/
structure Data where
  symbol : Str
  current_price : ℚ
  price_change_1h : ℚ
  price_change_4h : ℚ
  current_ema20 : ℚ
  current_macd : ℚ
  current_rsi7 : ℚ
  open_interest : Option OIData
  funding_rate : ℚ
  intraday_series : Option IntradayData
  longer_term_context : Option LongerTermData
deriving DecidableEq, Repr

/-! ## Indicator library (src/data.rs) -/

/-- data.rs `calculate_ema` (lines 85-100): below-period sentinel 0, seed by
simple average of the first `period` closes, then the EMA recurrence over the
remaining closes in order. -/
def calculate_ema (klines : List Kline) (period : Nat) : ℚ :=
  if klines.length < period then 0
  else
    let closes := klines.map (fun k => k.close)
    let seed := (closes.take period).sum / (period : ℚ)
    let multiplier := 2 / ((period : ℚ) + 1)
    (closes.drop period).foldl (fun ema price => (price - ema) * multiplier + ema) seed

/-- data.rs `calculate_macd` (lines 102-109). -/
def calculate_macd (klines : List Kline) : ℚ :=
  if klines.length < 26 then 0
  else calculate_ema klines 12 - calculate_ema klines 26

/-- The list of close-to-close changes `klines[i].close - klines[i-1].close`
for i = 1 .. len-1, as iterated by `calculate_rsi` (data.rs lines 118-131). -/
def closeChanges (klines : List Kline) : List ℚ :=
  List.zipWith (fun a b => a.close - b.close) klines.tail klines

/-- The gain contributed by one change (data.rs lines 120-124 and 132-136):
the change itself when positive, else 0. -/
def gainPart (x : ℚ) : ℚ := if x > 0 then x else 0

/-- The loss contributed by one change: 0 when the change is positive, else
its negation (so a zero change contributes loss 0). -/
def lossPart (x : ℚ) : ℚ := if x > 0 then 0 else -x

/-- One step of Wilder smoothing on the (avg_gain, avg_loss) pair
(data.rs lines 137-138).  `period - 1` is the source's usize subtraction,
meaningful for `period ≥ 1`. -/
def wilderStep (period : Nat) (avgs : ℚ × ℚ) (change : ℚ) : ℚ × ℚ :=
  ((avgs.1 * ((period - 1 : Nat) : ℚ) + gainPart change) / (period : ℚ),
   (avgs.2 * ((period - 1 : Nat) : ℚ) + lossPart change) / (period : ℚ))

/-- The final smoothed (avg_gain, avg_loss) pair of `calculate_rsi`
(data.rs lines 115-139): initial per-period averages over the first `period`
changes, then Wilder smoothing over the remaining changes. -/
def rsiAvgs (klines : List Kline) (period : Nat) : ℚ × ℚ :=
  let changes := closeChanges klines
  let initGain := ((changes.take period).map gainPart).sum / (period : ℚ)
  let initLoss := ((changes.take period).map lossPart).sum / (period : ℚ)
  (changes.drop period).foldl (wilderStep period) (initGain, initLoss)

/-- data.rs `calculate_rsi` (lines 111-146). -/
def calculate_rsi (klines : List Kline) (period : Nat) : ℚ :=
  if klines.length ≤ period then 0
  else
    let avgs := rsiAvgs klines period
    if avgs.2 = 0 then 100
    else 100 - 100 / (1 + avgs.1 / avgs.2)

/-- The true-range list of `calculate_atr` (data.rs lines 152-165): 0 for the
first candle, then max(high-low, |high-prev_close|, |low-prev_close|). -/
def trueRanges (klines : List Kline) : List ℚ :=
  0 :: List.zipWith
    (fun k prev =>
      max (max (k.high - k.low) |k.high - prev.close|) |k.low - prev.close|)
    klines.tail klines

/-- data.rs `calculate_atr` (lines 148-176): seed by the simple average of
true ranges at indices 1..=period, then Wilder smoothing over the rest. -/
def calculate_atr (klines : List Kline) (period : Nat) : ℚ :=
  if klines.length ≤ period then 0
  else
    let trs := trueRanges klines
    let seed := ((trs.drop 1).take period).sum / (period : ℚ)
    ((trs.drop 1).drop period).foldl
      (fun atr tr => (atr * ((period - 1 : Nat) : ℚ) + tr) / (period : ℚ)) seed

/-- data.rs `calculate_intraday_series` (lines 178-205): for each of the last
10 candles, re-run the indicators on the prefix ending at that candle; each
sub-series is only pushed once the prefix is long enough for its indicator. -/
def calculate_intraday_series (klines : List Kline) : IntradayData :=
  let total := klines.length
  if total = 0 then ⟨[], [], [], [], []⟩
  else
    let idxs := (List.range total).drop (total - 10)
    { mid_prices := idxs.map (fun i =>
        (((klines.take (i + 1)).map (fun k => k.close)).getLast?).getD 0)
      ema20_values := (idxs.filter (fun i => 20 ≤ (klines.take (i + 1)).length)).map
        (fun i => calculate_ema (klines.take (i + 1)) 20)
      macd_values := (idxs.filter (fun i => 26 ≤ (klines.take (i + 1)).length)).map
        (fun i => calculate_macd (klines.take (i + 1)))
      rsi7_values := (idxs.filter (fun i => 7 < (klines.take (i + 1)).length)).map
        (fun i => calculate_rsi (klines.take (i + 1)) 7)
      rsi14_values := (idxs.filter (fun i => 14 < (klines.take (i + 1)).length)).map
        (fun i => calculate_rsi (klines.take (i + 1)) 14) }

/-- data.rs `calculate_longer_term_data` (lines 207-238). -/
def calculate_longer_term_data (klines : List Kline) : LongerTermData :=
  let total := klines.length
  if total = 0 then ⟨0, 0, 0, 0, 0, 0, [], []⟩
  else
    let idxs := (List.range total).drop (total - 10)
    { ema20 := calculate_ema klines 20
      ema50 := calculate_ema klines 50
      atr3 := calculate_atr klines 3
      atr14 := calculate_atr klines 14
      current_volume := ((klines.map (fun k => k.volume)).getLast?).getD 0
      average_volume :=
        if klines.length ≠ 0 then (klines.map (fun k => k.volume)).sum / (total : ℚ)
        else 0
      macd_values := (idxs.filter (fun i => 26 ≤ (klines.take (i + 1)).length)).map
        (fun i => calculate_macd (klines.take (i + 1)))
      rsi14_values := (idxs.filter (fun i => 14 < (klines.take (i + 1)).length)).map
        (fun i => calculate_rsi (klines.take (i + 1)) 14) }

/-! ## Symbol normalization and snapshot build (src/data.rs) -/

/-- The quote-asset suffix. -/
def usdt : Str := "USDT".toList

/-- data.rs `normalize` (lines 405-412): uppercase the symbol and append
"USDT" unless it is already a suffix. -/
def normalize (symbol : Str) : Str :=
  let upper := symbol.map Char.toUpper
  if usdt.isSuffixOf upper then upper else upper ++ usdt

/-- The error taxonomy of data.rs `MarketError` (lines 7-17). -/
inductive MarketError where
  | requestError
  | parseFloatError
  | parseJsonError
  | insufficientData
deriving DecidableEq, Repr

/-- Outcome of one upstream HTTP call for the optional series: either a
transport failure, or a response carrying the HTTP status (success or not)
and the parsed numeric payload (`none` models a body that fails to parse). -/
inductive Upstream (α : Type) where
  | netErr : Upstream α
  | resp (statusSuccess : Bool) (payload : Option α) : Upstream α
deriving DecidableEq, Repr

/-- data.rs `get_open_interest_data` (lines 251-274): a non-success status
degrades to `none`; transport or parse failures are hard errors; the average
is the documented `latest * 0.999` approximation. -/
def get_open_interest_data (resp : Upstream ℚ) : Except MarketError (Option OIData) :=
  match resp with
  | .netErr => .error .requestError
  | .resp ok payload =>
    if ok then
      match payload with
      | none => .error .parseJsonError
      | some oi => .ok (some ⟨oi, oi * (999 / 1000)⟩)
    else .ok none

/-- data.rs `get_funding_rate` (lines 276-295): same degradation shape as the
open-interest fetch. -/
def get_funding_rate (resp : Upstream ℚ) : Except MarketError (Option ℚ) :=
  match resp with
  | .netErr => .error .requestError
  | .resp ok payload =>
    if ok then
      match payload with
      | none => .error .parseJsonError
      | some rate => .ok (some rate)
    else .ok none

/-- Result of the snapshot build: a snapshot, a returned error, or a panic
(the Rust process aborting on `unwrap`). -/
inductive BuildResult where
  | ok (d : Data)
  | err (e : MarketError)
  | panicked
deriving DecidableEq, Repr

/-- An all-zero candle used to model Rust's indexing default; the guarded
index sites below never actually reach it. -/
def zeroKline : Kline := ⟨0, 0, 0, 0, 0, 0, 0⟩

/-- data.rs `get` (lines 20-81), with the outcomes of the four concurrent
fetches passed in explicitly (the two candle fetches as `Except`, the two
optional series as raw upstream responses fed to their fetchers).  The
`try_join` aborts with the error of a failed fetch; after the join the
current-price guard runs, and the final `Data` literal calls
`funding_rate.unwrap()` (data.rs line 77), which panics when the funding
fetch degraded to `None`. -/
def get (symbol : Str) (klines3mRes klines4hRes : Except MarketError (List Kline))
    (oiResp fundResp : Upstream ℚ) : BuildResult :=
  let symbol := normalize symbol
  match klines3mRes, klines4hRes, get_open_interest_data oiResp, get_funding_rate fundResp with
  | .error e, _, _, _ => .err e
  | _, .error e, _, _ => .err e
  | _, _, .error e, _ => .err e
  | _, _, _, .error e => .err e
  | .ok klines3m, .ok klines4h, .ok oi_data, .ok funding_rate =>
    let current_price := ((klines3m.map (fun k => k.close)).getLast?).getD 0
    if current_price = 0 then .err .insufficientData
    else
      let current_ema20 := calculate_ema klines3m 20
      let current_macd := calculate_macd klines3m
      let current_rsi7 := calculate_rsi klines3m 7
      let price_change_1h :=
        if 21 ≤ klines3m.length then
          let price_1h_ago := (klines3m.getD (klines3m.length - 21) zeroKline).close
          if price_1h_ago > 0 then (current_price - price_1h_ago) / price_1h_ago * 100
          else 0
        else 0
      let price_change_4h :=
        if 2 ≤ klines4h.length then
          let price_4h_ago := (klines4h.getD (klines4h.length - 2) zeroKline).close
          if price_4h_ago > 0 then (current_price - price_4h_ago) / price_4h_ago * 100
          else 0
        else 0
      let intraday_data := calculate_intraday_series klines3m
      let longer_term_data := calculate_longer_term_data klines4h
      match funding_rate with
      | none => .panicked
      | some rate =>
        .ok ⟨symbol, current_price, price_change_1h, price_change_4h, current_ema20,
             current_macd, current_rsi7, oi_data, rate, some intraday_data,
             some longer_term_data⟩

/-! ## Report rendering (src/data.rs `format`, lines 300-396)

The renderer is embedded at line granularity: each `writeln!` of the source
becomes one constructor application carrying the exact values it formats.
The textual rendering of numbers ({:.2}, {:.3}, {:.2e}) is not modelled. -/

/-- One output line of the report, in source order of the constructors. -/
inductive ReportLine where
  | header (price ema20 macd rsi7 : ℚ)
  | oiIntro (symbol : Str)
  | oiLine (latest average : ℚ)
  | fundingLine (rate : ℚ)
  | intradayHeader
  | midPrices (xs : List ℚ)
  | intradayEma20 (xs : List ℚ)
  | intradayMacd (xs : List ℚ)
  | intradayRsi7 (xs : List ℚ)
  | intradayRsi14 (xs : List ℚ)
  | longTermHeader
  | emaCompare (ema20 ema50 : ℚ)
  | atrCompare (atr3 atr14 : ℚ)
  | volCompare (current average : ℚ)
  | ltMacd (xs : List ℚ)
  | ltRsi14 (xs : List ℚ)
deriving DecidableEq, Repr

/-- data.rs `format` (lines 300-396) as the sequence of lines it writes: the
header and intro lines are written unconditionally, the open-interest line
only when the series is present, the funding-rate line unconditionally, the
intraday header unconditionally followed by the five series lines only when
the intraday series is present, and the longer-term header unconditionally
followed by its five lines only when the context is present. -/
def format (d : Data) : List ReportLine :=
  [ReportLine.header d.current_price d.current_ema20 d.current_macd d.current_rsi7,
   ReportLine.oiIntro d.symbol]
  ++ (match d.open_interest with
      | some oi => [ReportLine.oiLine oi.latest oi.average]
      | none => [])
  ++ [ReportLine.fundingLine d.funding_rate, ReportLine.intradayHeader]
  ++ (match d.intraday_series with
      | some s =>
        [ReportLine.midPrices s.mid_prices,
         ReportLine.intradayEma20 s.ema20_values,
         ReportLine.intradayMacd s.macd_values,
         ReportLine.intradayRsi7 s.rsi7_values,
         ReportLine.intradayRsi14 s.rsi14_values]
      | none => [])
  ++ [ReportLine.longTermHeader]
  ++ (match d.longer_term_context with
      | some l =>
        [ReportLine.emaCompare l.ema20 l.ema50,
         ReportLine.atrCompare l.atr3 l.atr14,
         ReportLine.volCompare l.current_volume l.average_volume,
         ReportLine.ltMacd l.macd_values,
         ReportLine.ltRsi14 l.rsi14_values]
      | none => [])

/-! ## Decision ledger reads (src/logger.rs `get_latest_records`) -/

/-- Lexicographic byte order on file names, the order `sort_by_key` uses. -/
def strLe : Str → Str → Bool
  | [], _ => true
  | _ :: _, [] => false
  | a :: as, b :: bs => if a < b then true else if b < a then false else strLe as bs

/-- Stable sort of directory entries by file name (logger.rs line 134).
Rust's stable `sort_by_key` is modelled by insertion sort, which is also
stable for the same total preorder. -/
def sortByName {α : Type} (entries : List (Str × Option α)) : List (Str × Option α) :=
  entries.insertionSort (fun a b => strLe a.1 b.1 = true)

/-- logger.rs `get_latest_records` (lines 124-156): sort the directory's
files by name, keep the last `n` (all when fewer exist), then read and parse
each, silently skipping entries that fail to read or parse.  A directory is
modelled as a list of (file name, parse outcome) pairs, `none` standing for
a file whose read or JSON parse fails. -/
def getLatestRecords {α : Type} (entries : List (Str × Option α)) (n : Nat) : List α :=
  let sorted := sortByName entries
  (sorted.drop (sorted.length - n)).filterMap Prod.snd

/-! ## Position reconstruction (src/logger.rs `analyze_performance`) -/

/-- logger.rs `Action` (lines 68-78). -/
inductive Action where
  | openShort
  | openLong
  | closeShort
  | closeLong
deriving DecidableEq, Repr

/-- logger.rs `DecisionAction` (lines 55-66), restricted to the fields the
reconstruction reads. -/
structure DecisionAction where
  action : Action
  symbol : Str
  quantity : ℚ
  leverage : Int
  price : ℚ
  timestamp : Int
  success : Bool
deriving DecidableEq, Repr

/-- The open-position value stored in the reconstruction map (the JSON-value
record built at logger.rs lines 317-326 and 353-363). -/
structure OpenPosition where
  side : Str
  open_price : ℚ
  open_time : Int
  quantity : ℚ
  leverage : Int
deriving DecidableEq, Repr

/-- The `open_positions` HashMap keyed by the formatted `symbol_side`
string, as an association list without duplicate keys. -/
abbrev PosMap := List (Str × OpenPosition)

/-- HashMap lookup. -/
def mapFind (m : PosMap) (k : Str) : Option OpenPosition :=
  match m with
  | [] => none
  | (k', v) :: rest => if k' = k then some v else mapFind rest k

/-- HashMap remove. -/
def mapErase (m : PosMap) (k : Str) : PosMap :=
  match m with
  | [] => []
  | (k', v) :: rest => if k' = k then mapErase rest k else (k', v) :: mapErase rest k

/-- HashMap insert (replacing any existing binding). -/
def mapInsert (m : PosMap) (k : Str) (v : OpenPosition) : PosMap :=
  (k, v) :: mapErase m k

/-- The side string computed by the priming pass (logger.rs lines 304-311):
open_long/close_long give "long", open_short/close_short give "short". -/
def sidePrime (a : Action) : Str :=
  if a = .openLong ∨ a = .closeLong then "long".toList
  else if a = .openShort ∨ a = .closeShort then "short".toList
  else []

/-- The side string computed by the output-window pass exactly as written at
logger.rs lines 342-348: the first branch tests open_long OR OPEN_short (so
open_short yields "long"), and close_long matches neither branch (so it
yields the empty side string). -/
def sideOut (a : Action) : Str :=
  if a = .openLong ∨ a = .openShort then "long".toList
  else if a = .openShort ∨ a = .closeShort then "short".toList
  else []

/-- The `format!("{}_{}", symbol, side)` position key. -/
def posKey (symbol side : Str) : Str := symbol ++ '_' :: side

/-- One action of the priming pass (logger.rs lines 298-333): skip
unsuccessful actions, store the open state on an open action, remove it on a
close action. -/
def primeStep (m : PosMap) (a : DecisionAction) : PosMap :=
  if a.success = false then m
  else
    let side := sidePrime a.action
    let k := posKey a.symbol side
    match a.action with
    | .openLong | .openShort =>
      mapInsert m k ⟨side, a.price, a.timestamp, a.quantity, a.leverage⟩
    | .closeLong | .closeShort => mapErase m k

/-- logger.rs `TradeOutcome` (lines 436-451) restricted to the fields the
close arm computes; `duration` and `was_stop_loss` are omitted (the source's
incomplete literal never reaches them). -/
structure TradeOutcome where
  symbol : Str
  side : Str
  quantity : ℚ
  leverage : Int
  open_price : ℚ
  close_price : ℚ
  position_value : ℚ
  margin_used : ℚ
  pnl : ℚ
  pnl_pct : ℚ
  open_time : Int
  close_time : Int
deriving DecidableEq, Repr

/-- One action of the output-window pass (logger.rs lines 336-420), faithful
to the source as written: the side string uses the output pass's mapping
(`sideOut`), an open action stores the open state, and the close arm looks
the key up and, when found, computes pnl, position_value, margin_used and
pnl_pct (lines 392-405) WITHOUT removing the key from the map (the source's
close arm contains no `remove`).  The accumulation of the computed
TradeOutcome is modelled from the spec: the source constructs the outcome at
lines 407-415 but the literal is incomplete and the function never stores it
anywhere, so collecting it into a list stands in for the missing
aggregation. -/
def outStep (st : PosMap × List TradeOutcome) (a : DecisionAction) :
    PosMap × List TradeOutcome :=
  if a.success = false then st
  else
    let side := sideOut a.action
    let k := posKey a.symbol side
    match a.action with
    | .openLong | .openShort =>
      (mapInsert st.1 k ⟨side, a.price, a.timestamp, a.quantity, a.leverage⟩, st.2)
    | .closeLong | .closeShort =>
      match mapFind st.1 k with
      | none => st
      | some p =>
        let pnl :=
          if p.side = "long".toList then p.quantity * (a.price - p.open_price)
          else p.quantity * (p.open_price - a.price)
        let position_value := p.quantity * p.open_price
        let margin_used := position_value / (p.leverage : ℚ)
        let pnl_pct := if margin_used > 0 then pnl / margin_used * 100 else 0
        (st.1,
         st.2 ++ [⟨a.symbol, p.side, p.quantity, p.leverage, p.open_price, a.price,
                   position_value, margin_used, pnl, pnl_pct, p.open_time, a.timestamp⟩])

/-- The two replay passes of `analyze_performance` (logger.rs lines 295-420):
when the wider history is strictly larger than the output window, prime the
open-position map by replaying the whole wider history (logger.rs line 298
iterates over all of `all_records`), then replay the output window from that
map, collecting outcomes.  Records are given as their decision lists. -/
def reconstruct (allRecords window : List (List DecisionAction)) :
    PosMap × List TradeOutcome :=
  let m0 : PosMap :=
    if window.length < allRecords.length then
      allRecords.foldl (fun m r => r.foldl primeStep m) []
    else []
  window.foldl (fun st r => r.foldl outStep st) (m0, [])

/-! ## Performance aggregation -/

/-- The aggregate statistics of logger.rs `PerformanceAnalysis` that the
claims mention. -/
structure PerformanceAnalysis where
  total_trades : Nat
  winning_trades : Nat
  losing_trades : Nat
  win_rate : ℚ
  avg_win : ℚ
  avg_loss : ℚ
  profit_factor : ℚ
deriving DecidableEq, Repr

/-- Modelled from the spec: the aggregation step of `analyze_performance` is
absent from the source (the function ends at logger.rs line 422 in a unit
expression with no terminal return, and never counts winners or losers), so
this definition follows spec section 4.5: winning means pnl > 0, losing means
pnl ≤ 0, win_rate = winning/total (0 when total = 0), avg_win/avg_loss are
the class means, and profit_factor = sum of winning pnl over the absolute
sum of losing pnl. -/
def analyzeOutcomes (outcomes : List TradeOutcome) : PerformanceAnalysis :=
  let wins := outcomes.filter (fun o => decide (o.pnl > 0))
  let losses := outcomes.filter (fun o => decide (o.pnl ≤ 0))
  let total := outcomes.length
  { total_trades := total
    winning_trades := wins.length
    losing_trades := losses.length
    win_rate := if total = 0 then 0 else (wins.length : ℚ) / (total : ℚ)
    avg_win := if wins.length = 0 then 0 else (wins.map (fun o => o.pnl)).sum / (wins.length : ℚ)
    avg_loss := if losses.length = 0 then 0 else (losses.map (fun o => o.pnl)).sum / (losses.length : ℚ)
    profit_factor := (wins.map (fun o => o.pnl)).sum / |(losses.map (fun o => o.pnl)).sum| }

/-! ## Reference definitions and concrete inputs for the claims -/

/-- Modelled from the spec: the EMA computation in the spec's own words
(section 4.1) over a bare list of closes, for refinement comparison with
`calculate_ema`. -/
def emaSpec (closes : List ℚ) (period : Nat) : ℚ :=
  let seed := (closes.take period).sum / (period : ℚ)
  (closes.drop period).foldl
    (fun ema price => (price - ema) * (2 / ((period : ℚ) + 1)) + ema) seed

/-- Modelled from the spec: the intended side mapping of section 4.4
(open_long/close_long give long, open_short/close_short give short), used to
state the claims' (symbol, side) key. -/
def sideSpec (a : Action) : Str :=
  match a with
  | .openLong | .closeLong => "long".toList
  | .openShort | .closeShort => "short".toList

/-- Well-formedness of a reconstruction map: every key was produced by
`posKey` with side "long" or "short" (true of every reachable map, since
both passes only insert such keys). -/
def wfPosMap (m : PosMap) : Prop :=
  ∀ e ∈ m, (∃ s, e.1 = s ++ "_long".toList) ∨ (∃ s, e.1 = s ++ "_short".toList)

/-- A candle whose close is the given price and whose other fields are 0. -/
def mkKline (c : ℚ) : Kline := ⟨0, 0, 0, 0, c, 0, 0⟩

/-- A trade outcome with the given pnl (other fields irrelevant to the
aggregation). -/
def mkOutcome (p : ℚ) : TradeOutcome := ⟨[], [], 1, 1, 0, 0, 0, 0, p, 0, 0, 0⟩

/-- The spec's reconstruction example: open_long qty=2 price=100 at t=0. -/
def exOpenLong : DecisionAction := ⟨.openLong, "BTCUSDT".toList, 2, 1, 100, 0, true⟩

/-- The spec's reconstruction example: close_long price=110 at t=1. -/
def exCloseLong : DecisionAction := ⟨.closeLong, "BTCUSDT".toList, 2, 1, 110, 1, true⟩

/-- The spec's unmatched-close example: a lone close_short price=50. -/
def exCloseShort : DecisionAction := ⟨.closeShort, "BTCUSDT".toList, 0, 1, 50, 0, true⟩

/-- A directory with two parseable records and one corrupt file, the corrupt
one sorting last. -/
def exEntries : List (Str × Option Nat) :=
  [("decision_a".toList, some 1), ("decision_b".toList, some 2),
   ("decision_c".toList, none)]

/-- A directory in which every file parses. -/
def exEntriesAllParse : List (Str × Option Nat) :=
  [("decision_a".toList, some 1), ("decision_b".toList, some 2)]

/-- A snapshot with no open interest, no intraday series and no longer-term
context. -/
def exBareData : Data :=
  ⟨"BTCUSDT".toList, 100, 0, 0, 0, 0, 0, none, 0, none, none⟩

/-! ## Theorems -/

/-- C1: evaluation of the reconstruction at the spec's own example stream
[open_long qty=2 price=100, close_long price=110] on BTCUSDT.  The output
pass derives side "" for close_long, so the close looks up the key
"BTCUSDT_" while the open lives under "BTCUSDT_long": no TradeOutcome is
produced (the claim demands exactly one with pnl = 20) and the open-position
map is left non-empty (the claim demands it be cleared). -/
theorem reconstruct_example_evaluation :
    (reconstruct [[exOpenLong, exCloseLong]] [[exOpenLong, exCloseLong]]).2 = []
    ∧ (reconstruct [[exOpenLong, exCloseLong]] [[exOpenLong, exCloseLong]]).1
        = [(posKey "BTCUSDT".toList "long".toList,
            ⟨"long".toList, 100, 0, 2, 1⟩)] := by
  constructor
  · rfl
  · rfl

/-- C2: evaluation of the two side computations.  The priming pass maps all
four action kinds as the claim states, but the output-window pass (logger.rs
lines 342-348) maps open_short to "long" and close_long to the empty string,
contradicting the claim for the output-window pass. -/
theorem side_mapping_evaluation :
    sidePrime Action.openLong = "long".toList
    ∧ sidePrime Action.closeLong = "long".toList
    ∧ sidePrime Action.openShort = "short".toList
    ∧ sidePrime Action.closeShort = "short".toList
    ∧ sideOut Action.openShort = "long".toList
    ∧ sideOut Action.openShort ≠ "short".toList
    ∧ sideOut Action.closeLong = [] := by
  refine ⟨rfl, rfl, rfl, rfl, rfl, ?_, rfl⟩
  decide

/-- C3: the spec-modelled aggregation (the source's `analyze_performance`
never assembles these statistics) evaluated at the claim's example pnl list
[+10, -5, +15] yields exactly the claimed figures: 3 trades, 2 winning, 1
losing, win_rate 2/3, avg_win 12.5, avg_loss -5, profit_factor 5. -/
theorem analyze_example_evaluation :
    analyzeOutcomes [mkOutcome 10, mkOutcome (-5), mkOutcome 15]
      = ⟨3, 2, 1, 2 / 3, 25 / 2, -5, 5⟩ := by
  norm_num [analyzeOutcomes, mkOutcome, List.filter]

/-- C6: evaluation of the snapshot build on a non-success upstream status
for each optional series.  A non-success open-interest response degrades to
an absent series and the build succeeds, but a non-success funding-rate
response reaches `funding_rate.unwrap()` (data.rs line 77) and panics the
build, contradicting the claim for the funding-rate series. -/
theorem optional_series_build_evaluation :
    (Option.map (fun d => d.open_interest)
      (match get "BTC".toList (.ok [mkKline 100]) (.ok [mkKline 50])
          (Upstream.resp false none) (Upstream.resp true (some (1 / 100))) with
        | .ok d => some d
        | _ => none) = some none)
    ∧ get "BTC".toList (.ok [mkKline 100]) (.ok [mkKline 50])
        (Upstream.resp true (some 5)) (Upstream.resp false none)
        = .panicked := by
  constructor
  · rfl
  · rfl

/-- C8 counterexample: a directory whose three files sort as two parseable
records followed by one corrupt file.  Two records exist, yet
`get_latest_records 2` returns only one of them, because the corrupt file is
included in the name-sorted window before parsing and then skipped. -/
theorem read_recent_counterexample :
    exEntries.filterMap Prod.snd = [1, 2]
    ∧ getLatestRecords exEntries 2 = [2]
    ∧ getLatestRecords exEntries 2 ≠ exEntries.filterMap Prod.snd := by
  refine ⟨rfl, ?_, ?_⟩ <;> decide

/-- C9 counterexample: a snapshot with no intraday series and no longer-term
context; the rendered report nevertheless contains both section headers, so
an absent section is not omitted entirely. -/
theorem format_counterexample :
    exBareData.intraday_series = none
    ∧ exBareData.longer_term_context = none
    ∧ ReportLine.intradayHeader ∈ format exBareData
    ∧ ReportLine.longTermHeader ∈ format exBareData := by
  refine ⟨rfl, rfl, ?_, ?_⟩ <;> decide

theorem charOfNat_toNat {n : Nat} (h : n.isValidChar) : (Char.ofNat n).toNat = n := by
  simp [Char.ofNat, h, Char.ofNatAux, Char.toNat, UInt32.toNat, BitVec.toNat_ofNatLt]

theorem toUpper_idem (c : Char) : c.toUpper.toUpper = c.toUpper := by
  show Char.toUpper _ = _
  simp only [Char.toUpper]
  split
  · next h =>
    have hval : (c.toNat - 32).isValidChar := by left; omega
    rw [if_neg]
    rw [charOfNat_toNat hval]
    omega
  · rfl

theorem map_toUpper_idem (l : Str) :
    (l.map Char.toUpper).map Char.toUpper = l.map Char.toUpper := by
  rw [List.map_map]
  exact List.map_congr_left fun c _ => toUpper_idem c

/-- C4: `calculate_ema` returns 0 when the candle list is shorter than the
period, and otherwise equals the spec's seed-then-recurrence computation
over the closes; at the spec's example (closes [1,2,3,4,5], period 3) it
yields 4. -/
theorem ema_matches_spec :
    (∀ (c : List Kline) (p : Nat),
      calculate_ema c p =
        if c.length < p then 0 else emaSpec (c.map (fun k => k.close)) p)
    ∧ calculate_ema ([1, 2, 3, 4, 5].map mkKline) 3 = 4 := by
  constructor
  · intro c p
    unfold calculate_ema emaSpec
    split
    · rfl
    · rfl
  · norm_num [calculate_ema, emaSpec, mkKline]

/-- C10: symbol normalization always yields a fully upper-case string (a
fixed point of the character-wise upper-casing) ending in the "USDT" quote
suffix, and it is idempotent. -/
theorem normalize_shape_and_idempotent (s : Str) :
    (normalize s).map Char.toUpper = normalize s
    ∧ usdt <:+ normalize s
    ∧ normalize (normalize s) = normalize s := by
  have husdt : usdt.map Char.toUpper = usdt := by decide
  unfold normalize
  by_cases h : usdt.isSuffixOf (s.map Char.toUpper) = true
  · rw [if_pos h]
    refine ⟨map_toUpper_idem s, List.isSuffixOf_iff_suffix.mp h, ?_⟩
    rw [map_toUpper_idem s, if_pos h]
  · rw [if_neg h]
    have hupper : (s.map Char.toUpper ++ usdt).map Char.toUpper
        = s.map Char.toUpper ++ usdt := by
      rw [List.map_append, map_toUpper_idem s, husdt]
    refine ⟨hupper, List.suffix_append _ _, ?_⟩
    rw [hupper]
    rw [if_pos (List.isSuffixOf_iff_suffix.mpr (List.suffix_append _ _))]

theorem gainPart_nonneg (x : ℚ) : 0 ≤ gainPart x := by
  unfold gainPart
  split
  · linarith
  · exact le_refl 0

theorem lossPart_nonneg (x : ℚ) : 0 ≤ lossPart x := by
  unfold lossPart
  split
  · rfl
  · next h => simp at h; linarith

theorem wilderFold_nonneg (p : Nat) (l : List ℚ) (st : ℚ × ℚ)
    (h1 : 0 ≤ st.1) (h2 : 0 ≤ st.2) :
    0 ≤ (l.foldl (wilderStep p) st).1 ∧ 0 ≤ (l.foldl (wilderStep p) st).2 := by
  induction l generalizing st with
  | nil => exact ⟨h1, h2⟩
  | cons x xs ih =>
    apply ih
    · exact div_nonneg
        (add_nonneg (mul_nonneg h1 (Nat.cast_nonneg _)) (gainPart_nonneg x))
        (Nat.cast_nonneg _)
    · exact div_nonneg
        (add_nonneg (mul_nonneg h2 (Nat.cast_nonneg _)) (lossPart_nonneg x))
        (Nat.cast_nonneg _)

theorem rsiAvgs_nonneg (c : List Kline) (p : Nat) :
    0 ≤ (rsiAvgs c p).1 ∧ 0 ≤ (rsiAvgs c p).2 := by
  unfold rsiAvgs
  apply wilderFold_nonneg
  · apply div_nonneg _ (Nat.cast_nonneg _)
    apply List.sum_nonneg
    intro x hx
    rcases List.mem_map.mp hx with ⟨y, _, rfl⟩
    exact gainPart_nonneg y
  · apply div_nonneg _ (Nat.cast_nonneg _)
    apply List.sum_nonneg
    intro x hx
    rcases List.mem_map.mp hx with ⟨y, _, rfl⟩
    exact lossPart_nonneg y

/-- C5: for a positive period, `calculate_rsi` returns 0 when the candle
list is not longer than the period; otherwise its value lies in [0, 100],
equals 100 exactly when the smoothed average loss is 0, and otherwise equals
100 - 100/(1 + avg_gain/avg_loss) for the Wilder-smoothed averages. -/
theorem rsi_bounds_and_loss_characterization (c : List Kline) (p : Nat)
    (hp : 0 < p) :
    (c.length ≤ p → calculate_rsi c p = 0)
    ∧ (p < c.length →
        0 ≤ calculate_rsi c p ∧ calculate_rsi c p ≤ 100
        ∧ (calculate_rsi c p = 100 ↔ (rsiAvgs c p).2 = 0)
        ∧ ((rsiAvgs c p).2 ≠ 0 →
            calculate_rsi c p
              = 100 - 100 / (1 + (rsiAvgs c p).1 / (rsiAvgs c p).2))) := by
  constructor
  · intro h
    unfold calculate_rsi
    rw [if_pos h]
  · intro h
    have hguard : ¬ c.length ≤ p := not_le.mpr h
    have hnn := rsiAvgs_nonneg c p
    unfold calculate_rsi
    rw [if_neg hguard]
    by_cases hz : (rsiAvgs c p).2 = 0
    · rw [if_pos hz]
      refine ⟨by norm_num, le_refl _, ⟨fun _ => hz, fun _ => rfl⟩, fun hc => absurd hz hc⟩
    · rw [if_neg hz]
      have hl : 0 < (rsiAvgs c p).2 := lt_of_le_of_ne hnn.2 (Ne.symm hz)
      have hrs : 0 ≤ (rsiAvgs c p).1 / (rsiAvgs c p).2 := div_nonneg hnn.1 (le_of_lt hl)
      have hden : (1 : ℚ) ≤ 1 + (rsiAvgs c p).1 / (rsiAvgs c p).2 := by linarith
      have hfrac_pos : 0 < 100 / (1 + (rsiAvgs c p).1 / (rsiAvgs c p).2) :=
        div_pos (by norm_num) (by linarith)
      have hfrac_le : 100 / (1 + (rsiAvgs c p).1 / (rsiAvgs c p).2) ≤ 100 := by
        apply div_le_self (by norm_num) hden
      refine ⟨by linarith, by linarith, ⟨fun hc => ?_, fun hc => absurd hc hz⟩,
        fun _ => rfl⟩
      exfalso
      linarith

/-- Witness for C5: the below-period case at a 1-candle list with period 7,
and the lower bound at a 2-candle list with period 1. -/
theorem rsi_bounds_witness :
    calculate_rsi [mkKline 1] 7 = 0
    ∧ 0 ≤ calculate_rsi [mkKline 1, mkKline 2] 1 := by
  constructor
  · exact (rsi_bounds_and_loss_characterization [mkKline 1] 7 (by norm_num)).1
      (by norm_num)
  · exact ((rsi_bounds_and_loss_characterization [mkKline 1, mkKline 2] 1
      (by norm_num)).2 (by norm_num)).1

theorem mapFind_some_mem {m : PosMap} {k : Str} {v : OpenPosition}
    (h : mapFind m k = some v) : (k, v) ∈ m := by
  induction m with
  | nil => simp [mapFind] at h
  | cons e rest ih =>
    rcases e with ⟨k', v'⟩
    by_cases hk : k' = k
    · subst hk
      simp [mapFind] at h
      subst h
      exact List.mem_cons_self _ _
    · simp only [mapFind, if_neg hk] at h
      exact List.mem_cons_of_mem _ (ih h)

theorem emptySide_key_not_wf {m : PosMap} (hwf : wfPosMap m) (sym : Str) :
    mapFind m (sym ++ ['_']) = none := by
  cases hfind : mapFind m (sym ++ ['_']) with
  | none => rfl
  | some v =>
    exfalso
    have hmem := mapFind_some_mem hfind
    rcases hwf _ hmem with ⟨s, hs⟩ | ⟨s, hs⟩ <;>
    · simp only at hs
      have := congrArg List.reverse hs
      rw [List.reverse_append, List.reverse_append] at this
      simp at this

/-- C7: a successful close action whose (symbol, side) key, with side
derived from the action kind as the spec directs, has no open position in a
well-formed reconstruction map is a complete no-op of the output pass: no
TradeOutcome is produced and the map and accumulated outcomes are returned
unchanged.  (For close_short the pass consults exactly that key; for
close_long it consults the key with the empty side string, which a
well-formed map never contains.) -/
theorem unmatched_close_is_noop (m : PosMap) (out : List TradeOutcome)
    (a : DecisionAction)
    (hs : a.success = true)
    (hc : a.action = .closeLong ∨ a.action = .closeShort)
    (hwf : wfPosMap m)
    (hnone : mapFind m (posKey a.symbol (sideSpec a.action)) = none) :
    outStep (m, out) a = (m, out) := by
  rcases hc with hc | hc
  · unfold outStep
    rw [hs]
    simp only [Bool.true_eq_false, if_false, hc]
    have hside : sideOut Action.closeLong = [] := rfl
    rw [hside]
    have hkey : posKey a.symbol [] = a.symbol ++ ['_'] := rfl
    rw [hkey, emptySide_key_not_wf hwf a.symbol]
  · unfold outStep
    rw [hs]
    simp only [Bool.true_eq_false, if_false, hc]
    have hside : sideOut Action.closeShort = sideSpec Action.closeShort := rfl
    rw [hside, ← hc, hnone]

/-- Witness for C7: the spec's lone close_short on an empty reconstruction
state is a silent no-op. -/
theorem unmatched_close_witness :
    outStep (([] : PosMap), ([] : List TradeOutcome)) exCloseShort = ([], []) :=
  unmatched_close_is_noop [] [] exCloseShort rfl (Or.inr rfl)
    (fun e he => absurd he (List.not_mem_nil e)) rfl

theorem filterMap_snd_drop_of_all_some {α β : Type} :
    ∀ (l : List (β × Option α)) (k : Nat), (∀ e ∈ l, e.2.isSome) →
      (l.drop k).filterMap Prod.snd = (l.filterMap Prod.snd).drop k := by
  intro l
  induction l with
  | nil => intro k _; simp
  | cons e rest ih =>
    intro k h
    cases k with
    | zero => simp
    | succ k =>
      rcases e with ⟨name, v⟩
      have hv : v.isSome := h _ (List.mem_cons_self _ _)
      rcases Option.isSome_iff_exists.mp hv with ⟨a, rfl⟩
      have hrest : ∀ e ∈ rest, e.2.isSome := fun e he => h e (List.mem_cons_of_mem _ he)
      simp only [List.drop_succ_cons, List.filterMap_cons_some, List.drop_succ_cons]
      exact ih k hrest

theorem length_filterMap_snd_of_all_some {α β : Type} :
    ∀ (l : List (β × Option α)), (∀ e ∈ l, e.2.isSome) →
      (l.filterMap Prod.snd).length = l.length := by
  intro l
  induction l with
  | nil => intro _; rfl
  | cons e rest ih =>
    intro h
    rcases e with ⟨name, v⟩
    have hv : v.isSome := h _ (List.mem_cons_self _ _)
    rcases Option.isSome_iff_exists.mp hv with ⟨a, rfl⟩
    have hrest : ∀ e ∈ rest, e.2.isSome := fun e he => h e (List.mem_cons_of_mem _ he)
    have hstep : List.filterMap Prod.snd ((name, some a) :: rest)
        = a :: List.filterMap Prod.snd rest := rfl
    rw [hstep, List.length_cons, List.length_cons, ih hrest]

/-- C8 amended: when every file in the directory parses, `get_latest_records`
returns the suffix of the name-sorted record sequence that starts at
position (total - n) — that is, the min(n, total) most recent records in
ascending file-name (chronological) order. -/
theorem read_recent_all_parse {α : Type} (entries : List (Str × Option α))
    (n : Nat) (h : ∀ e ∈ entries, e.2.isSome) :
    getLatestRecords entries n
      = ((sortByName entries).filterMap Prod.snd).drop (entries.length - n)
    ∧ (getLatestRecords entries n).length = min n entries.length := by
  have hperm : (sortByName entries).Perm entries :=
    List.perm_insertionSort _ entries
  have hall : ∀ e ∈ sortByName entries, e.2.isSome :=
    fun e he => h e (hperm.mem_iff.mp he)
  have hlen : (sortByName entries).length = entries.length := hperm.length_eq
  constructor
  · unfold getLatestRecords
    rw [filterMap_snd_drop_of_all_some _ _ hall, hlen]
  · unfold getLatestRecords
    rw [filterMap_snd_drop_of_all_some _ _ hall, List.length_drop,
      length_filterMap_snd_of_all_some _ hall, hlen, Nat.min_def]
    split <;> omega

/-- Witness for C8 amended: a two-file directory where both files parse. -/
theorem read_recent_all_parse_witness :
    getLatestRecords exEntriesAllParse 1
      = ((sortByName exEntriesAllParse).filterMap Prod.snd).drop
          (exEntriesAllParse.length - 1)
    ∧ (getLatestRecords exEntriesAllParse 1).length = min 1 exEntriesAllParse.length :=
  read_recent_all_parse exEntriesAllParse 1 (by decide)

/-- C9 amended: the rendered report always contains the price header, the
open-interest intro, the funding-rate line and both section headers; the
open-interest data line appears exactly when the series is present, and the
intraday / longer-term data lines appear exactly when their section data is
present — absence of data omits only the data lines, never the headers. -/
theorem format_line_presence (d : Data) :
    ReportLine.header d.current_price d.current_ema20 d.current_macd d.current_rsi7
        ∈ format d
    ∧ ReportLine.oiIntro d.symbol ∈ format d
    ∧ ReportLine.fundingLine d.funding_rate ∈ format d
    ∧ ReportLine.intradayHeader ∈ format d
    ∧ ReportLine.longTermHeader ∈ format d
    ∧ ((∃ l a, ReportLine.oiLine l a ∈ format d) ↔ d.open_interest.isSome = true)
    ∧ ((∃ xs, ReportLine.midPrices xs ∈ format d) ↔ d.intraday_series.isSome = true)
    ∧ ((∃ a b, ReportLine.emaCompare a b ∈ format d)
        ↔ d.longer_term_context.isSome = true) := by
  rcases d with ⟨sym, cp, p1, p4, e20, mc, r7, oi, fr, intr, ltc⟩
  cases oi <;> cases intr <;> cases ltc <;> simp [format]

end AITrading
